import Mathlib

/-!
Verification development for the one-page PDF append pipeline
(`pdf_engine.py` plus the worker pipeline in `app.py`).

The pipeline is embedded shallowly:
* the filesystem is an association list from paths to file data;
* a PDF file is its ordered list of pages (each page a byte list);
* the external collaborators (the Markdown library, the Pygments
  highlighter, `mimetypes.guess_type`, and the out-of-process
  rasterizer `generate_pdf.js`) are parameters of an `Env` record,
  since their code is not part of the engine;
* Python exceptions are modelled by `Option` results and by the
  explicit failure branches of each function.
-/

namespace PdfEngine

/-! ### Byte and path primitives -/

abbrev Path := String
abbrev Bytes := List Nat

/-- Contents of one file on disk.  `pdf pages` is a file that `PdfReader`
parses successfully into the given page list; `text` is a file readable as
UTF-8 text (CSS, HTML); `bin` is raw binary data (images, or a corrupt
file that `PdfReader` rejects). -/
inductive FileData where
  | pdf (pages : List Bytes)
  | text (s : String)
  | bin (b : Bytes)
deriving DecidableEq

/-- The filesystem: an association list from paths to file contents.
`none` lookup = the file does not exist. -/
abbrev FS := List (Path × FileData)

def FS.lookup : FS → Path → Option FileData
  | [], _ => none
  | e :: fs, p => if e.1 = p then some e.2 else FS.lookup fs p

/-- Model of `os.remove` (and the overwrite part of a write): drop every entry at `p`. -/
def FS.erase : FS → Path → FS
  | [], _ => []
  | e :: fs, p => if e.1 = p then FS.erase fs p else e :: FS.erase fs p

/-- Write file data at `p`, replacing whatever was there. -/
def FS.set (fs : FS) (p : Path) (d : FileData) : FS :=
  (p, d) :: FS.erase fs p

/-- The `finally:`-block pattern `if os.path.exists(p): os.remove(p)`. -/
def removeIfExists (fs : FS) (p : Path) : FS :=
  if (FS.lookup fs p).isSome then FS.erase fs p else fs

theorem FS.lookup_erase_self (fs : FS) (p : Path) :
    FS.lookup (FS.erase fs p) p = none := by
  induction fs with
  | nil => rfl
  | cons e fs ih =>
    by_cases h : e.1 = p <;> simp [FS.erase, FS.lookup, h, ih]

theorem FS.lookup_erase_ne (fs : FS) (p q : Path) (h : q ≠ p) :
    FS.lookup (FS.erase fs p) q = FS.lookup fs q := by
  induction fs with
  | nil => rfl
  | cons e fs ih =>
    by_cases he : e.1 = p
    · have hq : e.1 ≠ q := by rw [he]; exact fun hx => h hx.symm
      simp only [FS.erase, if_pos he, FS.lookup, if_neg hq, ih]
    · simp only [FS.erase, if_neg he, FS.lookup]
      by_cases hq : e.1 = q <;> simp [hq, ih]

theorem FS.lookup_set_self (fs : FS) (p : Path) (d : FileData) :
    FS.lookup (FS.set fs p d) p = some d := by
  simp [FS.set, FS.lookup]

theorem FS.lookup_set_ne (fs : FS) (p q : Path) (d : FileData) (h : q ≠ p) :
    FS.lookup (FS.set fs p d) q = FS.lookup fs q := by
  have : p ≠ q := fun hq => h hq.symm
  simp [FS.set, FS.lookup, this, FS.lookup_erase_ne fs p q h]

theorem removeIfExists_lookup_self (fs : FS) (p : Path) :
    FS.lookup (removeIfExists fs p) p = none := by
  unfold removeIfExists
  by_cases h : (FS.lookup fs p).isSome
  · simp [h, FS.lookup_erase_self]
  · simp [h]
    exact Option.not_isSome_iff_eq_none.mp h

theorem removeIfExists_lookup_ne (fs : FS) (p q : Path) (h : q ≠ p) :
    FS.lookup (removeIfExists fs p) q = FS.lookup fs q := by
  unfold removeIfExists
  by_cases hs : (FS.lookup fs p).isSome <;> simp [hs, FS.lookup_erase_ne fs p q h]

/-! ### The archive merger, `merge_pdfs` (pdf_engine.py lines 70-107)

`PdfReader(path)` succeeds exactly when the file exists and parses as a
PDF; a missing file (`FileNotFoundError`) and a corrupt file (a pypdf
parse error) both land in the `except Exception` arm and make the
function return `False`.  The `finally:` block removes the temporary
new-page file whenever it still exists. -/

/-- Reading a file as a PDF: the page list, or `none` when the file is
missing or does not parse as a PDF (both raise in Python). -/
def readPdfFile (fs : FS) (p : Path) : Option (List Bytes) :=
  match FS.lookup fs p with
  | some (FileData.pdf pages) => some pages
  | _ => none

/-- The merger `merge_pdfs(main_pdf_path, new_page_path)`: returns the filesystem
after the call together with the boolean result.

* if the main PDF does not exist, `os.rename(new_page_path, main_pdf_path)`
  (raising, hence `False`, when the new page file is missing);
* otherwise read all pages of both files and rewrite `main_pdf_path`
  with their concatenation; any read failure returns `False` before the
  destination is opened for writing;
* the `finally:` block removes `new_page_path` if it still exists. -/
def merge_pdfs (fs : FS) (main_pdf_path new_page_path : Path) : FS × Bool :=
  let body : FS × Bool :=
    match FS.lookup fs main_pdf_path with
    | none =>
      match FS.lookup fs new_page_path with
      | some d => (FS.set (FS.erase fs new_page_path) main_pdf_path d, true)
      | none => (fs, false)
    | some _ =>
      match readPdfFile fs main_pdf_path, readPdfFile fs new_page_path with
      | some main_pages, some new_pages =>
        (FS.set fs main_pdf_path (FileData.pdf (main_pages ++ new_pages)), true)
      | _, _ => (fs, false)
  (removeIfExists body.1 new_page_path, body.2)

/-- After any `merge_pdfs` call the temporary new-page file is gone,
provided it was a file distinct from the archive... it is in fact gone
unconditionally: every exit path either renamed it away, or hits the
`finally:` removal. -/
theorem merge_pdfs_removes_new_page (fs : FS) (main newp : Path) :
    FS.lookup (merge_pdfs fs main newp).1 newp = none := by
  unfold merge_pdfs
  apply removeIfExists_lookup_self

/-- The merger touches no path other than the archive and the new-page file. -/
theorem merge_pdfs_preserves_other (fs : FS) (main newp q : Path)
    (hqm : q ≠ main) (hqn : q ≠ newp) :
    FS.lookup (merge_pdfs fs main newp).1 q = FS.lookup fs q := by
  unfold merge_pdfs
  cases hm : FS.lookup fs main with
  | none =>
    cases hn : FS.lookup fs newp with
    | none => simp [hm, hn, removeIfExists_lookup_ne _ _ _ hqn]
    | some d =>
      simp only [hm, hn]
      rw [removeIfExists_lookup_ne _ _ _ hqn, FS.lookup_set_ne _ _ _ _ hqm,
        FS.lookup_erase_ne _ _ _ hqn]
  | some d =>
    cases hrm : readPdfFile fs main with
    | none => simp [hm, hrm, removeIfExists_lookup_ne _ _ _ hqn]
    | some mp =>
      cases hrn : readPdfFile fs newp with
      | none => simp [hm, hrm, hrn, removeIfExists_lookup_ne _ _ _ hqn]
      | some np =>
        simp only [hm, hrm, hrn]
        rw [removeIfExists_lookup_ne _ _ _ hqn, FS.lookup_set_ne _ _ _ _ hqm]

end PdfEngine

namespace PdfEngine

/-! ### Character-list string utilities

Python strings are sequences of code points; the embedding works over
`List Char` (converted to and from Lean `String` at function
boundaries) so that every operation is structurally recursive and
kernel-evaluable. -/

/-- Decimal digits of `n`, most significant first; the first argument is
structural fuel (`n+1` always suffices). -/
def natDigitsAux : Nat → Nat → List Char
  | 0, _ => []
  | fuel + 1, n =>
    if n < 10 then [Char.ofNat (48 + n)]
    else natDigitsAux fuel (n / 10) ++ [Char.ofNat (48 + n % 10)]

/-- Decimal rendering of a natural number, as Python `str(n)` / an
f-string interpolation produces it. -/
def natDecimal (n : Nat) : List Char :=
  natDigitsAux (n + 1) n

/-- Python `str.strip()` whitespace set (the characters stripped from
code-block languages and contents). -/
def isPySpace (c : Char) : Bool :=
  c = ' ' || c = '\t' || c = '\n' || c = '\x0d' || c = '\x0b' || c = '\x0c'

def dropPySpace : List Char → List Char
  | [] => []
  | c :: cs => if isPySpace c then dropPySpace cs else c :: cs

/-- Python `str.strip()`. -/
def pyStrip (l : List Char) : List Char :=
  (dropPySpace (dropPySpace l.reverse).reverse)

/-- Python `str.split("\n")` specialised to the newline separator. -/
def splitLinesAux (cur : List Char) : List Char → List (List Char)
  | [] => [cur.reverse]
  | c :: cs => if c = '\n' then cur.reverse :: splitLinesAux [] cs
               else splitLinesAux (c :: cur) cs

def splitLines (l : List Char) : List (List Char) :=
  splitLinesAux [] l

/-- Python `"\n".join(lines)`. -/
def joinLines : List (List Char) → List Char
  | [] => []
  | [l] => l
  | l :: ls => l ++ '\n' :: joinLines ls

/-- Whether `pat` starts the list, as a Bool over char lists. -/
def isPrefixB : List Char → List Char → Bool
  | [], _ => true
  | _ :: _, [] => false
  | p :: ps, c :: cs => if p = c then isPrefixB ps cs else false

/-- Python's `pat in s` substring test over char lists. -/
def occursIn (pat : List Char) : List Char → Bool
  | [] => isPrefixB pat []
  | c :: l => isPrefixB pat (c :: l) || occursIn pat l

/-- One fuel-indexed step list for Python `str.replace(pat, rep)`:
replace every non-overlapping occurrence of `pat`, scanning left to
right.  Fuel `l.length` always suffices because every recursive call
consumes at least one character. -/
def replCharsAux (pat rep : List Char) : Nat → List Char → List Char
  | _, [] => []
  | 0, l => l
  | fuel + 1, c :: cs =>
    if isPrefixB pat (c :: cs) then
      match pat with
      | [] => c :: replCharsAux pat rep fuel cs
      | _ :: ps => rep ++ replCharsAux pat rep fuel (cs.drop ps.length)
    else c :: replCharsAux pat rep fuel cs

/-- Python `s.replace(pat, rep)` over char lists (for the nonempty
patterns the engine uses). -/
def replChars (pat rep l : List Char) : List Char :=
  replCharsAux pat rep l.length l

/-- Python `s.replace(old, new)` over Lean strings. -/
def pyReplace (s pat rep : String) : String :=
  String.mk (replChars pat.data rep.data s.data)

/-- Python `pat in s` over Lean strings. -/
def strContains (s pat : String) : Bool :=
  occursIn pat.data s.data

/-- Python `html.escape(s)` (quote=True): the per-character entity map;
`&` is replaced first in CPython, which coincides with this
character-wise map because no entity introduces a fresh escapable
character. -/
def escapeChar (c : Char) : List Char :=
  if c = '&' then "&amp;".data
  else if c = '<' then "&lt;".data
  else if c = '>' then "&gt;".data
  else if c = '"' then "&quot;".data
  else if c = '\'' then "&#x27;".data
  else [c]

def htmlEscapeChars : List Char → List Char
  | [] => []
  | c :: cs => escapeChar c ++ htmlEscapeChars cs

/-- Python `html.escape` on Lean strings. -/
def htmlEscape (s : String) : String :=
  String.mk (htmlEscapeChars s.data)

/-- Pygments' `escape_html` map (used by `HtmlFormatter` on every token,
in particular on the raw text a `TextLexer` passes through). -/
def pygEscapeChar (c : Char) : List Char :=
  if c = '&' then "&amp;".data
  else if c = '<' then "&lt;".data
  else if c = '>' then "&gt;".data
  else if c = '"' then "&quot;".data
  else if c = '\'' then "&#39;".data
  else [c]

def pygEscapeChars : List Char → List Char
  | [] => []
  | c :: cs => pygEscapeChar c ++ pygEscapeChars cs

def pygEscape (s : String) : String :=
  String.mk (pygEscapeChars s.data)

/-! ### The external collaborators

`pdf_engine.py` leans on four pieces of code that are not in this
repository's `src/` tree: the `markdown` library, Pygments,
`mimetypes.guess_type` and the Node rasterizer script
`generate_pdf.js`.  They enter the embedding as an environment. -/

/-- Exit behaviour of `subprocess.run(['node', script], check=True)`:
exit status zero, a non-zero exit (`CalledProcessError`), or a missing
executable (`FileNotFoundError`). -/
inductive RasterExit where
  | ok
  | nonzero
  | notFound
deriving DecidableEq

/-- Modelled from the spec: the out-of-process rasterizer
(`generate_pdf.js`, which is not under `src/`).  Per the spec it "is
expected to read an HTML file at a fixed relative path and write a PDF
at a fixed relative path", and success of the attempt "is signaled by
process exit status zero AND the expected output file existing" — the
exit status and the presence of the output file are independent
signals, so the model records both: the exit behaviour and what the
process left at its fixed output path (`none` = no file written).  A
missing executable never runs, hence never writes. -/
structure RasterOutcome where
  exit : RasterExit
  wrote : Option FileData

/-- The external collaborators of one pipeline invocation:
`md` is `markdown.markdown(·, extensions=[...])`;
`getLexer` is `pygments.lexers.get_lexer_by_name` (`none` = raises, any
unrecognized or empty language tag); `lexHtml` is the token HTML the
named lexer produces inside the `codehilite` wrapper; `guessMime` is
`mimetypes.guess_type`; `raster` is this invocation's rasterizer run. -/
structure Env where
  md : String → String
  getLexer : String → Option String
  lexHtml : String → String → String
  guessMime : Path → Option String
  raster : RasterOutcome

/-- The `HtmlFormatter(cssclass="codehilite")` wrapper that `highlight`
puts around the token stream. -/
def codehiliteWrap (inner : String) : String :=
  "<div class=\"codehilite\"><pre>" ++ inner ++ "\n</pre></div>\n"

/-- Lines 34-40 of `pdf_engine.py`: choose the lexer by name, falling
back to `TextLexer()` when `get_lexer_by_name` raises, then run
`highlight`.  A `TextLexer` emits the content as plain escaped text. -/
def highlightFn (env : Env) (language content : String) : String :=
  match env.getLexer language with
  | some lexid => codehiliteWrap (env.lexHtml lexid content)
  | none => codehiliteWrap (pygEscape content)

/-! ### Fenced code block extraction (pdf_engine.py lines 27-48)

The regex is
`^[ \t]*\x60\x60\x60([^\n]*)\n(.*?)\n^[ \t]*\x60\x60\x60` with
`DOTALL | MULTILINE`.  A match opens at a line holding optional blanks
then a triple backtick (the rest of the line being the language tag),
needs at least one full content line, and closes at the earliest later
line holding optional blanks then a triple backtick; the match ends
right after the closing backticks, so the rest of a closing line
survives next to the substituted placeholder. -/

/-- Drop the `[ \t]*` line indent. -/
def dropIndent : List Char → List Char
  | [] => []
  | c :: cs => if c = ' ' || c = '\t' then dropIndent cs else c :: cs

/-- If the line is `[ \t]*` then three backticks, return the rest of the
line (the `([^\n]*)` group on an opening fence; the left-over text on a
closing fence). -/
def fenceSplit (line : List Char) : Option (List Char) :=
  match dropIndent line with
  | '`' :: '`' :: '`' :: rest => some rest
  | _ => none

/-- Scan for the earliest closing fence line, collecting the content
lines before it; returns `(content lines, rest of the closing line,
lines after the close)`. -/
def fenceScan : List (List Char) → Option (List (List Char) × List Char × List (List Char))
  | [] => none
  | l :: ls =>
    match fenceSplit l with
    | some rem => some ([], rem, ls)
    | none =>
      match fenceScan ls with
      | some (cs, rem, after) => some (l :: cs, rem, after)
      | none => none

/-- The closing fence for a block opened on the previous line: the
first line can never close the block (the regex requires a content line
and its newline before the closing `^[ \t]*` anchor). -/
def findClose : List (List Char) → Option (List (List Char) × List Char × List (List Char))
  | [] => none
  | l0 :: ls =>
    match fenceScan ls with
    | some (cs, rem, after) => some (l0 :: cs, rem, after)
    | none => none

/-- The placeholder `f"CODEBLOCK{len(highlighted_blocks)}"`. -/
def placeholderChars (idx : Nat) : List Char :=
  "CODEBLOCK".data ++ natDecimal idx

/-- One pass of `pattern.sub(_highlight_and_replace, markdown_text)`,
line by line: the output lines (with each matched region replaced by
its placeholder, glued to the remains of its closing line) and the raw
`(language, content)` groups in match order.  The first argument is
structural fuel; `lines.length` always suffices. -/
def scanLinesAux : Nat → List (List Char) → Nat → List (List Char) × List (List Char × List Char)
  | _, [], _ => ([], [])
  | 0, l :: ls, _ => (l :: ls, [])
  | fuel + 1, l :: ls, idx =>
    match fenceSplit l with
    | none =>
      let p := scanLinesAux fuel ls idx
      (l :: p.1, p.2)
    | some lang =>
      match findClose ls with
      | none =>
        let p := scanLinesAux fuel ls idx
        (l :: p.1, p.2)
      | some (contentLines, rem, after) =>
        let p := scanLinesAux fuel after (idx + 1)
        ((placeholderChars idx ++ rem) :: p.1, (lang, joinLines contentLines) :: p.2)

/-- Fenced-block extraction of `markdown_to_html_final`: the text with
placeholders (as lines) and the raw match groups in order. -/
def extractFenced (markdown_text : String) : List (List Char) × List (List Char × List Char) :=
  let lines := splitLines markdown_text.data
  scanLinesAux lines.length lines 0

/-- The callback `_highlight_and_replace` on one match: strip the language and
content groups and highlight (pdf_engine.py lines 29-44). -/
def renderBlock (env : Env) (g : List Char × List Char) : String :=
  highlightFn env (String.mk (pyStrip g.1)) (String.mk (pyStrip g.2))

/-- Step 3 of `markdown_to_html_final` (lines 60-66): for each block `i`
in order, replace `<p>CODEBLOCKi</p>` if present, else fall back to
replacing the bare `CODEBLOCKi`; both replacements hit every
occurrence, as Python `str.replace` does. -/
def reinject : List String → Nat → String → String
  | [], _, html_output => html_output
  | b :: bs, i, html_output =>
    let placeholder_p := String.mk ("<p>".data ++ placeholderChars i ++ "</p>".data)
    let out :=
      if strContains html_output placeholder_p then pyReplace html_output placeholder_p b
      else pyReplace html_output (String.mk (placeholderChars i)) b
    reinject bs (i + 1) out

/-- The renderer `markdown_to_html_final(markdown_text)` (pdf_engine.py lines 13-68):
extract and highlight every fenced code block, substitute placeholders,
run the remaining text through the Markdown converter, then re-inject
the highlighted HTML. -/
def markdown_to_html_final (env : Env) (markdown_text : String) : String :=
  let p := extractFenced markdown_text
  let highlighted_blocks := p.2.map (renderBlock env)
  let text_with_placeholders := String.mk (joinLines p.1)
  let html_output := env.md text_with_placeholders
  reinject highlighted_blocks 0 html_output

/-! ### A concrete collaborator instance

For closed evaluations the Markdown converter is instantiated with a
paragraph-wrapping model: split on blank lines and wrap each paragraph
in `<p>...</p>` — exactly what `markdown.markdown` returns on inputs
made of plain one-line paragraphs (such as bare placeholder tokens).
The lexer table is empty, matching `get_lexer_by_name` raising on an
empty or unknown language tag. -/

def mdPara (s : String) : String :=
  "<p>" ++ pyReplace s "\n\n" "</p>\n<p>" ++ "</p>"

def envPlain : Env where
  md := mdPara
  getLexer := fun _ => none
  lexHtml := fun _ _ => ""
  guessMime := fun _ => none
  raster := { exit := RasterExit.ok, wrote := none }

example : markdown_to_html_final envPlain "CODEBLOCK0\n\n```\nx\n```" =
    "<div class=\"codehilite\"><pre>x\n</pre></div>\n\n<div class=\"codehilite\"><pre>x\n</pre></div>\n" := by
  decide

example : String.mk (joinLines (extractFenced "```py\n```").1) = "```py\n```"
    ∧ (extractFenced "```py\n```").2 = [] := by decide

example : String.mk (joinLines (extractFenced "```py\n\n```").1) = "CODEBLOCK0"
    ∧ (extractFenced "```py\n\n```").2 = [("py".data, [])] := by decide

example : String.mk (joinLines (extractFenced "a\n  ```js\ncode\n  ```tail\nb").1) = "a\nCODEBLOCK0tail\nb"
    ∧ (extractFenced "a\n  ```js\ncode\n  ```tail\nb").2 = [("js".data, "code".data)] := by decide

example : String.mk (joinLines (extractFenced "```a\nmid\n```py\nmore\n```").1) = "CODEBLOCK0py\nmore\n```"
    ∧ (extractFenced "```a\nmid\n```py\nmore\n```").2 = [("a".data, "mid".data)] := by decide

example : String.mk (joinLines (extractFenced "```a\nc1\n```\n```b\nc2\n```").1) = "CODEBLOCK0\nCODEBLOCK1"
    ∧ (extractFenced "```a\nc1\n```\n```b\nc2\n```").2 = [("a".data, "c1".data), ("b".data, "c2".data)] := by decide

example : String.mk (joinLines (extractFenced "text ```py\nx\n```").1) = "text ```py\nx\n```"
    ∧ (extractFenced "text ```py\nx\n```").2 = [] := by decide

/-! ### Replacement lemmas

Python `str.replace` replaces every non-overlapping occurrence; the
lemmas below pin down its action on a text that contains the pattern
exactly once, and on a text that does not contain it at all. -/

theorem isPrefixB_append_self (l t : List Char) : isPrefixB l (l ++ t) = true := by
  induction l with
  | nil => rfl
  | cons c cs ih => simp [isPrefixB, ih]

theorem occursIn_append_middle (pat A C : List Char) :
    occursIn pat (A ++ pat ++ C) = true := by
  induction A with
  | nil =>
    cases pat with
    | nil =>
      cases C with
      | nil => rfl
      | cons c cs => rfl
    | cons p ps =>
      have hp : isPrefixB (p :: ps) (p :: (ps ++ C)) = true :=
        isPrefixB_append_self (p :: ps) C
      have step : occursIn (p :: ps) (([] : List Char) ++ (p :: ps) ++ C)
          = (isPrefixB (p :: ps) (p :: (ps ++ C)) || occursIn (p :: ps) (ps ++ C)) := rfl
      rw [step, hp, Bool.true_or]
  | cons a A ih =>
    have step : occursIn pat ((a :: A) ++ pat ++ C)
        = (isPrefixB pat (a :: (A ++ pat ++ C)) || occursIn pat (A ++ pat ++ C)) := rfl
    rw [step, ih, Bool.or_true]

theorem replCharsAux_no_occurrence (pat rep : List Char) :
    ∀ (l : List Char) (fuel : Nat), l.length ≤ fuel → occursIn pat l = false →
      replCharsAux pat rep fuel l = l := by
  intro l
  induction l with
  | nil => intro fuel _ _; cases fuel <;> rfl
  | cons c cs ih =>
    intro fuel hfuel hocc
    cases fuel with
    | zero => simp at hfuel
    | succ f =>
      have hno : isPrefixB pat (c :: cs) = false ∧ occursIn pat cs = false := by
        simpa [occursIn] using hocc
      simp only [replCharsAux, hno.1, Bool.false_eq_true, if_false]
      have : cs.length ≤ f := by simpa using hfuel
      rw [ih f this hno.2]

theorem replCharsAux_single_occurrence (pat rep : List Char) (p : Char) (ps : List Char)
    (hpat : pat = p :: ps) :
    ∀ (A : List Char) (C : List Char) (fuel : Nat),
      (A ++ pat ++ C).length ≤ fuel →
      (∀ i < A.length, isPrefixB pat ((A ++ pat ++ C).drop i) = false) →
      occursIn pat C = false →
      replCharsAux pat rep fuel (A ++ pat ++ C) = A ++ rep ++ C := by
  subst hpat
  intro A
  induction A with
  | nil =>
    intro C fuel hfuel _ hC
    cases fuel with
    | zero => simp at hfuel
    | succ f =>
      have hp : isPrefixB (p :: ps) (p :: (ps ++ C)) = true :=
        isPrefixB_append_self (p :: ps) C
      have hdrop : (ps ++ C).drop ps.length = C := List.drop_left ps C
      have hlen : C.length ≤ f := by
        simp only [List.nil_append, List.cons_append, List.length_cons,
          List.length_append] at hfuel
        omega
      have step : replCharsAux (p :: ps) rep (f + 1) (([] : List Char) ++ (p :: ps) ++ C)
          = if isPrefixB (p :: ps) (p :: (ps ++ C)) = true then
              rep ++ replCharsAux (p :: ps) rep f ((ps ++ C).drop ps.length)
            else p :: replCharsAux (p :: ps) rep f (ps ++ C) := rfl
      rw [step, if_pos hp, hdrop, replCharsAux_no_occurrence _ _ C f hlen hC]
      rfl
  | cons a A ih =>
    intro C fuel hfuel hA hC
    cases fuel with
    | zero => simp at hfuel
    | succ f =>
      have h0 : isPrefixB (p :: ps) (a :: (A ++ (p :: ps) ++ C)) = false := by
        have := hA 0 (by simp)
        simpa using this
      have step : replCharsAux (p :: ps) rep (f + 1) ((a :: A) ++ (p :: ps) ++ C)
          = if isPrefixB (p :: ps) (a :: (A ++ (p :: ps) ++ C)) = true then
              rep ++ replCharsAux (p :: ps) rep f ((A ++ (p :: ps) ++ C).drop ps.length)
            else a :: replCharsAux (p :: ps) rep f (A ++ (p :: ps) ++ C) := rfl
      rw [step, if_neg (by rw [h0]; exact Bool.false_ne_true)]
      have hfuel' : (A ++ (p :: ps) ++ C).length ≤ f := by
        have : (a :: (A ++ (p :: ps) ++ C)).length ≤ f + 1 := by
          simpa using hfuel
        simpa using Nat.le_of_succ_le_succ this
      have hA' : ∀ i < A.length, isPrefixB (p :: ps) ((A ++ (p :: ps) ++ C).drop i) = false := by
        intro i hi
        have := hA (i + 1) (by simpa using Nat.succ_lt_succ hi)
        simpa using this
      rw [ih C f hfuel' hA' hC]
      rfl

/-- Python `str.replace` on a text holding exactly one occurrence of the
pattern, sitting between `A` and `C`. -/
theorem replChars_single_occurrence (pat rep A C : List Char) (p : Char) (ps : List Char)
    (hpat : pat = p :: ps)
    (hA : ∀ i < A.length, isPrefixB pat ((A ++ pat ++ C).drop i) = false)
    (hC : occursIn pat C = false) :
    replChars pat rep (A ++ pat ++ C) = A ++ rep ++ C :=
  replCharsAux_single_occurrence pat rep p ps hpat A C (A ++ pat ++ C).length
    (Nat.le_refl _) hA hC

/-- The paragraph-wrapped placeholder for block 0, as `reinject` builds it. -/
theorem placeholder_p_zero :
    String.mk ("<p>".data ++ placeholderChars 0 ++ "</p>".data) = "<p>CODEBLOCK0</p>" := by
  decide

/-- Re-injection of a single extracted block into a Markdown output that
contains its paragraph-wrapped placeholder exactly once. -/
theorem reinject_single_block (b A C : String)
    (hA : ∀ i < A.data.length,
      isPrefixB "<p>CODEBLOCK0</p>".data ((A.data ++ "<p>CODEBLOCK0</p>".data ++ C.data).drop i) = false)
    (hC : occursIn "<p>CODEBLOCK0</p>".data C.data = false) :
    reinject [b] 0 (A ++ "<p>CODEBLOCK0</p>" ++ C) = A ++ b ++ C := by
  have hdata : (A ++ "<p>CODEBLOCK0</p>" ++ C).data
      = A.data ++ "<p>CODEBLOCK0</p>".data ++ C.data := by
    simp [String.data_append]
  have hcont : strContains (A ++ "<p>CODEBLOCK0</p>" ++ C) "<p>CODEBLOCK0</p>" = true := by
    unfold strContains
    rw [hdata]
    exact occursIn_append_middle _ _ _
  have step : reinject [b] 0 (A ++ "<p>CODEBLOCK0</p>" ++ C)
      = if strContains (A ++ "<p>CODEBLOCK0</p>" ++ C)
            (String.mk ("<p>".data ++ placeholderChars 0 ++ "</p>".data)) = true then
          pyReplace (A ++ "<p>CODEBLOCK0</p>" ++ C)
            (String.mk ("<p>".data ++ placeholderChars 0 ++ "</p>".data)) b
        else
          pyReplace (A ++ "<p>CODEBLOCK0</p>" ++ C) (String.mk (placeholderChars 0)) b := rfl
  rw [step, placeholder_p_zero, if_pos hcont]
  unfold pyReplace replChars
  rw [hdata, replCharsAux_single_occurrence "<p>CODEBLOCK0</p>".data b.data '<'
    "p>CODEBLOCK0</p>".data (by decide) A.data C.data _ (Nat.le_refl _) hA hC]
  apply String.ext
  simp [String.data_append]

/-- Shared helper: when the input holds exactly one fenced block and the
Markdown converter renders the placeholder text as `A` ++
`<p>CODEBLOCK0</p>` ++ `C` with no further occurrence of the wrapped
placeholder, `markdown_to_html_final` is `A` ++ the highlighted block ++
`C`. -/
theorem markdown_single_block_eq
    (env : Env) (input : String) (outLines : List (List Char))
    (lang content : List Char) (A C : String)
    (hx : extractFenced input = (outLines, [(lang, content)]))
    (hmd : env.md (String.mk (joinLines outLines)) = A ++ "<p>CODEBLOCK0</p>" ++ C)
    (hA : ∀ i < A.data.length,
      isPrefixB "<p>CODEBLOCK0</p>".data
        ((A.data ++ "<p>CODEBLOCK0</p>".data ++ C.data).drop i) = false)
    (hC : occursIn "<p>CODEBLOCK0</p>".data C.data = false) :
    markdown_to_html_final env input = A ++ renderBlock env (lang, content) ++ C := by
  show reinject ((extractFenced input).2.map (renderBlock env)) 0
      (env.md (String.mk (joinLines (extractFenced input).1))) = _
  rw [hx]
  show reinject [renderBlock env (lang, content)] 0
      (env.md (String.mk (joinLines outLines))) = _
  rw [hmd]
  exact reinject_single_block _ A C hA hC

/-! ### Claims about the content renderer -/

/-- C4 is refuted: the placeholder token `CODEBLOCK0` is an ordinary
ASCII word that legitimate input can contain.  On the input whose first
paragraph is the literal text `CODEBLOCK0` followed by one fenced code
block, the substituted text contains the placeholder twice, the Markdown
output wraps both in paragraphs, and re-injection (Python `str.replace`
replaces every occurrence) rewrites both — the literal user paragraph is
replaced by highlighted-block HTML, and no `CODEBLOCK0` text survives:
text outside the extracted code block was altered. -/
theorem markdown_placeholder_collision_cex :
    String.mk (joinLines (extractFenced "CODEBLOCK0\n\n```\nx\n```").1)
      = "CODEBLOCK0\n\nCODEBLOCK0"
    ∧ mdPara "CODEBLOCK0\n\nCODEBLOCK0" = "<p>CODEBLOCK0</p>\n<p>CODEBLOCK0</p>"
    ∧ markdown_to_html_final envPlain "CODEBLOCK0\n\n```\nx\n```"
      = "<div class=\"codehilite\"><pre>x\n</pre></div>\n\n<div class=\"codehilite\"><pre>x\n</pre></div>\n"
    ∧ strContains (markdown_to_html_final envPlain "CODEBLOCK0\n\n```\nx\n```")
        "CODEBLOCK0" = false := by
  decide

/-- C4 (amended): the placeholder tokens are plain index-suffixed words
(`CODEBLOCK` + index) which CAN collide with legitimate input content;
re-injection replaces every occurrence of the (paragraph-wrapped)
placeholder, so it leaves the text outside the extracted code blocks
unaltered exactly when the rendered non-block text contains no colliding
occurrence — stated here for an input with one extracted block whose
rendered text holds the wrapped placeholder exactly once. -/
theorem reinjection_faithful_without_collision
    (env : Env) (input : String) (outLines : List (List Char))
    (lang content : List Char) (A C : String)
    (hx : extractFenced input = (outLines, [(lang, content)]))
    (hmd : env.md (String.mk (joinLines outLines)) = A ++ "<p>CODEBLOCK0</p>" ++ C)
    (hA : ∀ i < A.data.length,
      isPrefixB "<p>CODEBLOCK0</p>".data
        ((A.data ++ "<p>CODEBLOCK0</p>".data ++ C.data).drop i) = false)
    (hC : occursIn "<p>CODEBLOCK0</p>".data C.data = false) :
    markdown_to_html_final env input = A ++ renderBlock env (lang, content) ++ C :=
  markdown_single_block_eq env input outLines lang content A C hx hmd hA hC

theorem reinjection_faithful_without_collision_witness :
    extractFenced "intro\n\n```\ncode\n```"
      = (["intro".data, [], "CODEBLOCK0".data], [([], "code".data)])
    ∧ envPlain.md (String.mk (joinLines ["intro".data, [], "CODEBLOCK0".data]))
      = "<p>intro</p>\n" ++ "<p>CODEBLOCK0</p>" ++ ""
    ∧ markdown_to_html_final envPlain "intro\n\n```\ncode\n```"
      = "<p>intro</p>\n" ++ renderBlock envPlain ([], "code".data) ++ "" :=
  ⟨by decide, by decide,
    reinjection_faithful_without_collision envPlain "intro\n\n```\ncode\n```"
      ["intro".data, [], "CODEBLOCK0".data] [] "code".data
      "<p>intro</p>\n" "" (by decide) (by decide) (by decide) (by decide)⟩

/-- C6: a fenced code block whose stripped language tag the highlighter
does not recognize (`get_lexer_by_name` raises, `env.getLexer _ = none`)
is rendered through the `TextLexer` fallback: plain Pygments-escaped
text inside the `codehilite` wrapper.  The page render returns normally
and the block's content appears (escaped) in the output — nothing is
dropped. -/
theorem unrecognized_language_falls_back_plain
    (env : Env) (input : String) (outLines : List (List Char))
    (lang content : List Char) (A C : String)
    (hx : extractFenced input = (outLines, [(lang, content)]))
    (hlex : env.getLexer (String.mk (pyStrip lang)) = none)
    (hmd : env.md (String.mk (joinLines outLines)) = A ++ "<p>CODEBLOCK0</p>" ++ C)
    (hA : ∀ i < A.data.length,
      isPrefixB "<p>CODEBLOCK0</p>".data
        ((A.data ++ "<p>CODEBLOCK0</p>".data ++ C.data).drop i) = false)
    (hC : occursIn "<p>CODEBLOCK0</p>".data C.data = false) :
    markdown_to_html_final env input
      = A ++ codehiliteWrap (pygEscape (String.mk (pyStrip content))) ++ C := by
  have hrb : renderBlock env (lang, content)
      = codehiliteWrap (pygEscape (String.mk (pyStrip content))) := by
    unfold renderBlock highlightFn
    rw [hlex]
  rw [← hrb]
  exact markdown_single_block_eq env input outLines lang content A C hx hmd hA hC

theorem unrecognized_language_falls_back_plain_witness :
    extractFenced "```nope\nfoo<bar\n```" = (["CODEBLOCK0".data], [("nope".data, "foo<bar".data)])
    ∧ envPlain.getLexer (String.mk (pyStrip "nope".data)) = none
    ∧ markdown_to_html_final envPlain "```nope\nfoo<bar\n```"
      = "" ++ codehiliteWrap (pygEscape (String.mk (pyStrip "foo<bar".data))) ++ ""
    ∧ codehiliteWrap (pygEscape (String.mk (pyStrip "foo<bar".data)))
      = "<div class=\"codehilite\"><pre>foo&lt;bar\n</pre></div>\n" :=
  ⟨by decide, by decide,
    unrecognized_language_falls_back_plain envPlain "```nope\nfoo<bar\n```"
      ["CODEBLOCK0".data] "nope".data "foo<bar".data "" ""
      (by decide) (by decide) (by decide) (by decide) (by decide),
    by decide⟩

/-! ### The page composer and rasterizer driver, `create_pdf_page`
(pdf_engine.py lines 109-204)

Fixed paths: the engine writes `_temp.html` next to itself, reads
`style.css` next to itself, and expects the rasterizer's output at
`_temp_page.pdf` next to itself; `ENGINE/` stands for
`os.path.dirname(__file__)`.  The caller-supplied `output_path` is
resolved against the process working directory, a distinct location. -/

def tempHtmlPath : Path := "ENGINE/_temp.html"
def cssPath : Path := "ENGINE/style.css"
def rasterOutPath : Path := "ENGINE/_temp_page.pdf"

/-- Standard base64 alphabet. -/
def b64Char (n : Nat) : Char :=
  "ABCDEFGHIJKLMNOPQRSTUVWXYZabcdefghijklmnopqrstuvwxyz0123456789+/".data.getD n 'A'

/-- Python `base64.b64encode(...).decode('utf-8')`: standard base64 with `=`
padding, three bytes to four characters. -/
def base64 : Bytes → List Char
  | [] => []
  | [a] =>
    let a := a % 256
    [b64Char (a / 4), b64Char (a % 4 * 16), '=', '=']
  | [a, b] =>
    let a := a % 256
    let b := b % 256
    [b64Char (a / 4), b64Char (a % 4 * 16 + b / 16), b64Char (b % 16 * 4), '=']
  | a :: b :: c :: rest =>
    let a := a % 256
    let b := b % 256
    let c := c % 256
    b64Char (a / 4) :: b64Char (a % 4 * 16 + b / 16) ::
      b64Char (b % 16 * 4 + c / 64) :: b64Char (c % 64) :: base64 rest

/-- Reading a file's raw bytes (`open(path, "rb").read()`); every
existing file has bytes, whatever its parsed shape. -/
def FileData.asBytes : FileData → Bytes
  | FileData.pdf pages => pages.flatten
  | FileData.text s => s.data.map Char.toNat
  | FileData.bin b => b

/-- Python `mimetypes.guess_type` with the engine's fallback (lines 153-155):
a generic binary type when the extension is unrecognized. -/
def mimeFor (env : Env) (p : Path) : String :=
  (env.guessMime p).getD "application/octet-stream"

/-- The inline `<img>` element built for one image (line 158). -/
def imgTag (mime_type encoded_string : String) : String :=
  "<img src='data:" ++ mime_type ++ ";base64," ++ encoded_string ++ "'/>"

/-- The image section loop (lines 150-158): each supplied path in order,
read and inlined; a missing image file raises, failing the whole call. -/
def imageSectionOf (env : Env) (fs : FS) : List Path → Option String
  | [] => some ""
  | image_path :: rest =>
    match FS.lookup fs image_path with
    | none => none
    | some d =>
      match imageSectionOf env fs rest with
      | none => none
      | some tail =>
        some (imgTag (mimeFor env image_path) (String.mk (base64 (FileData.asBytes d))) ++ tail)

/-- One text section (lines 136-148): empty source text produces no
section at all; a `<h1>` heading (HTML-escaped) is prepended only when
`show_headings` holds and the heading text is non-empty; the
Markdown-rendered body is wrapped in a content `div` unescaped. -/
def buildSection (env : Env) (text heading : String) (show_headings : Bool) : String :=
  if text = "" then ""
  else
    (if show_headings ∧ heading ≠ "" then "<h1>" ++ htmlEscape heading ++ "</h1>" else "")
      ++ "<div class='content'>" ++ markdown_to_html_final env text ++ "</div>"

/-- The composed HTML document (the f-string at lines 160-180): head
with UTF-8 charset, font and MathJax resources and the inlined
stylesheet, then body with the user section, the model section and the
image section, in that order. -/
def composeDocument (css_content user_section model_section image_section : String) : String :=
  "\n        <!DOCTYPE html>\n        <html>\n        <head>\n            <meta charset=\"UTF-8\">\n            <title>PDF Page</title>\n            <link rel=\"preconnect\" href=\"https://fonts.googleapis.com\">\n            <link rel=\"preconnect\" href=\"https://fonts.gstatic.com\" crossorigin>\n            <link href=\"https://fonts.googleapis.com/css2?family=Noto+Color+Emoji&family=Roboto:wght@400;700&display=swap\" rel=\"stylesheet\">\n            <script id=\"MathJax-script\" async src=\"https://cdn.jsdelivr.net/npm/mathjax@3/es5/tex-mml-chtml.js\"></script>\n            <style>\n                "
    ++ css_content
    ++ "\n            </style>\n        </head>\n        <body>\n            "
    ++ user_section
    ++ "\n            "
    ++ model_section
    ++ "\n            "
    ++ image_section
    ++ "\n        </body>\n        </html>\n        "

/-- The rasterizer subprocess run: what it leaves at its fixed output
path.  A missing executable never starts, so it never writes; otherwise
the file it did or did not write lands at `ENGINE/_temp_page.pdf`. -/
def applyRaster (fs : FS) (r : RasterOutcome) : FS :=
  match r.exit with
  | RasterExit.notFound => fs
  | _ =>
    match r.wrote with
    | some d => FS.set fs rasterOutPath d
    | none => fs

/-- The driver `create_pdf_page(user_text, model_text, image_paths, output_path,
show_headings, user_heading, model_heading)`:

* read the stylesheet (raising on a missing/unreadable file → `False`);
* build the two text sections and the image section (a missing image
  raises → `False`);
* write the composed document to the transient HTML file;
* run the rasterizer with `check=True`: `FileNotFoundError` (missing
  executable) and `CalledProcessError` (non-zero exit) are caught →
  `False`;
* `os.rename` the expected output to `output_path` (raising when the
  file does not exist → `False`), then return `True`;
* on every path the `finally:` block deletes the transient HTML file if
  it exists. -/
def create_pdf_page (env : Env) (fs : FS) (user_text model_text : String)
    (image_paths : List Path) (output_path : Path) (show_headings : Bool)
    (user_heading model_heading : String) : FS × Bool :=
  let body : FS × Bool :=
    match FS.lookup fs cssPath with
    | some (FileData.text css_content) =>
      let user_section := buildSection env user_text user_heading show_headings
      let model_section := buildSection env model_text model_heading show_headings
      match imageSectionOf env fs image_paths with
      | none => (fs, false)
      | some image_section =>
        let html_content := composeDocument css_content user_section model_section image_section
        let fs1 := FS.set fs tempHtmlPath (FileData.text html_content)
        let fs2 := applyRaster fs1 env.raster
        match env.raster.exit with
        | RasterExit.ok =>
          match FS.lookup fs2 rasterOutPath with
          | some d => (FS.set (FS.erase fs2 rasterOutPath) output_path d, true)
          | none => (fs2, false)
        | _ => (fs2, false)
    | _ => (fs, false)
  (removeIfExists body.1 tempHtmlPath, body.2)

/-- The caller-side temporary page path (`app.py` line 62), resolved in
the process working directory. -/
def temp_page_path : Path := "_temp_page.pdf"

/-- One pipeline invocation (`PdfWorker.run`, app.py lines 60-77):
create the page at `_temp_page.pdf`; on success merge it into the main
PDF; any stage failure aborts the rest. -/
def pipelineRun (env : Env) (fs : FS) (user_text model_text : String)
    (image_paths : List Path) (main_pdf_path : Path) (show_headings : Bool)
    (user_heading model_heading : String) : FS × Bool :=
  let c := create_pdf_page env fs user_text model_text image_paths temp_page_path
    show_headings user_heading model_heading
  if c.2 then merge_pdfs c.1 main_pdf_path temp_page_path
  else (c.1, false)

/-! ### Claims about the composer and rasterizer driver -/

/-- Concatenation of a list of strings, in order. -/
def joinStrings : List String → String
  | [] => ""
  | s :: ss => s ++ joinStrings ss

theorem imageSectionOf_total (env : Env) (fs : FS) :
    ∀ paths : List Path, (∀ p ∈ paths, (FS.lookup fs p).isSome) →
      (imageSectionOf env fs paths).isSome := by
  intro paths
  induction paths with
  | nil => intro _; simp [imageSectionOf]
  | cons p ps ih =>
    intro h
    have hp := h p (by simp)
    obtain ⟨d, hd⟩ := Option.isSome_iff_exists.mp hp
    have hrest := ih (fun q hq => h q (by simp [hq]))
    obtain ⟨tail, htail⟩ := Option.isSome_iff_exists.mp hrest
    simp [imageSectionOf, hd, htail]

/-- C3: given a readable stylesheet, readable images and no stale file at
the rasterizer's fixed output location, `create_pdf_page` reports
success exactly when the external process exits with status zero AND the
expected output PDF exists; a non-zero exit, a missing executable
(`FileNotFoundError`), or a missing output file each yield failure for
the attempt. -/
theorem create_pdf_page_success_iff
    (env : Env) (fs : FS) (user_text model_text : String) (image_paths : List Path)
    (output_path : Path) (show_headings : Bool) (user_heading model_heading : String)
    (css : String)
    (hcss : FS.lookup fs cssPath = some (FileData.text css))
    (himgs : ∀ p ∈ image_paths, (FS.lookup fs p).isSome)
    (hstale : FS.lookup fs rasterOutPath = none) :
    (create_pdf_page env fs user_text model_text image_paths output_path
        show_headings user_heading model_heading).2 = true
      ↔ (env.raster.exit = RasterExit.ok ∧ env.raster.wrote.isSome) := by
  obtain ⟨isec, hisec⟩ :=
    Option.isSome_iff_exists.mp (imageSectionOf_total env fs image_paths himgs)
  unfold create_pdf_page
  rw [hcss, hisec]
  rcases hr : env.raster with ⟨ex, wr⟩
  have hne : rasterOutPath ≠ tempHtmlPath := by decide
  cases ex with
  | ok =>
    cases wr with
    | none =>
      have : FS.lookup (applyRaster
          (FS.set fs tempHtmlPath (FileData.text (composeDocument css
            (buildSection env user_text user_heading show_headings)
            (buildSection env model_text model_heading show_headings) isec)))
          ⟨RasterExit.ok, none⟩) rasterOutPath = none := by
        unfold applyRaster
        rw [FS.lookup_set_ne _ _ _ _ hne]
        exact hstale
      simp [this, Option.isSome]
    | some d =>
      have : FS.lookup (applyRaster
          (FS.set fs tempHtmlPath (FileData.text (composeDocument css
            (buildSection env user_text user_heading show_headings)
            (buildSection env model_text model_heading show_headings) isec)))
          ⟨RasterExit.ok, some d⟩) rasterOutPath = some d := by
        unfold applyRaster
        exact FS.lookup_set_self _ _ _
      simp [this, Option.isSome]
  | nonzero => simp [Option.isSome]
  | notFound => simp [Option.isSome]

/-- A collaborator instance whose rasterizer run succeeds and writes a
one-page PDF at the expected output path. -/
def envRasterOk : Env :=
  { envPlain with raster := { exit := RasterExit.ok, wrote := some (FileData.pdf [[9]]) } }

theorem create_pdf_page_success_iff_witness :
    FS.lookup [(cssPath, FileData.text "c"), ("img.png", FileData.bin [1, 2, 3])] cssPath
      = some (FileData.text "c")
    ∧ (∀ p ∈ ["img.png"], (FS.lookup
        [(cssPath, FileData.text "c"), ("img.png", FileData.bin [1, 2, 3])] p).isSome)
    ∧ FS.lookup [(cssPath, FileData.text "c"), ("img.png", FileData.bin [1, 2, 3])] rasterOutPath = none
    ∧ ((create_pdf_page envRasterOk [(cssPath, FileData.text "c"), ("img.png", FileData.bin [1, 2, 3])]
        "" "" ["img.png"] "page.pdf" true "User Message" "Model Response").2 = true
      ↔ (envRasterOk.raster.exit = RasterExit.ok ∧ envRasterOk.raster.wrote.isSome)) :=
  ⟨by decide, by decide, by decide,
    create_pdf_page_success_iff envRasterOk
      [(cssPath, FileData.text "c"), ("img.png", FileData.bin [1, 2, 3])]
      "" "" ["img.png"] "page.pdf" true "User Message" "Model Response" "c"
      (by decide) (by decide) (by decide)⟩

/-- C7: in the composed document a text section is omitted entirely when
its source text is empty, and (for non-empty text) the section opens
with an `<h1>` heading element precisely when `show_headings` holds AND
the heading text is non-empty. -/
theorem section_omitted_iff_heading_present
    (env : Env) (text heading : String) (show_headings : Bool) :
    (text = "" → buildSection env text heading show_headings = "")
    ∧ (text ≠ "" →
        (((buildSection env text heading show_headings).data.take 4 = "<h1>".data)
          ↔ (show_headings = true ∧ heading ≠ ""))) := by
  constructor
  · intro ht
    unfold buildSection
    rw [if_pos ht]
  · intro ht
    unfold buildSection
    rw [if_neg ht]
    by_cases hcond : show_headings = true ∧ heading ≠ ""
    · rw [if_pos hcond]
      constructor
      · intro _; exact hcond
      · intro _
        have hdata : (("<h1>" ++ htmlEscape heading ++ "</h1>")
            ++ "<div class='content'>" ++ markdown_to_html_final env text ++ "</div>").data
            = "<h1>".data ++ ((htmlEscape heading ++ "</h1>"
              ++ "<div class='content'>" ++ markdown_to_html_final env text ++ "</div>").data) := by
          simp [String.data_append]
        rw [hdata]
        have : ("<h1>".data).length = 4 := by decide
        rw [← this, List.take_left]
    · rw [if_neg hcond]
      constructor
      · intro htake
        exfalso
        have hdata : (("" : String) ++ "<div class='content'>"
            ++ markdown_to_html_final env text ++ "</div>").data
            = "<div class='content'>".data
              ++ (markdown_to_html_final env text ++ "</div>").data := by
          simp [String.data_append]
        rw [hdata] at htake
        rw [List.take_append_eq_append_take] at htake
        have h21 : ("<div class='content'>".data).length = 21 := by decide
        rw [h21] at htake
        simp only [show (4 - 21 : Nat) = 0 from rfl, List.take_zero, List.append_nil] at htake
        have : ("<div class='content'>".data).take 4 = ['<', 'd', 'i', 'v'] := by decide
        rw [this] at htake
        exact absurd htake (by decide)
      · intro hc; exact absurd hc hcond

theorem section_omitted_iff_heading_present_witness :
    buildSection envPlain "" "H" true = ""
    ∧ ((buildSection envPlain "hello" "H" true).data.take 4 = "<h1>".data)
    ∧ ¬((buildSection envPlain "hello" "H" false).data.take 4 = "<h1>".data) :=
  ⟨(section_omitted_iff_heading_present envPlain "" "H" true).1 rfl,
    ((section_omitted_iff_heading_present envPlain "hello" "H" true).2 (by decide)).mpr
      ⟨rfl, by decide⟩,
    fun h => absurd (((section_omitted_iff_heading_present envPlain "hello" "H" false).2
      (by decide)).mp h).1 (by decide)⟩

/-! ### C9 and C10 -/

/-- The head of the composed document, up to and including the start of
the body. -/
def composeHead (css_content : String) : String :=
  "\n        <!DOCTYPE html>\n        <html>\n        <head>\n            <meta charset=\"UTF-8\">\n            <title>PDF Page</title>\n            <link rel=\"preconnect\" href=\"https://fonts.googleapis.com\">\n            <link rel=\"preconnect\" href=\"https://fonts.gstatic.com\" crossorigin>\n            <link href=\"https://fonts.googleapis.com/css2?family=Noto+Color+Emoji&family=Roboto:wght@400;700&display=swap\" rel=\"stylesheet\">\n            <script id=\"MathJax-script\" async src=\"https://cdn.jsdelivr.net/npm/mathjax@3/es5/tex-mml-chtml.js\"></script>\n            <style>\n                "
    ++ css_content
    ++ "\n            </style>\n        </head>\n        <body>\n            "

/-- C9: every supplied image is embedded inline as base64 data with the
MIME type inferred from its extension (the generic binary type when
`guess_type` has no answer), the section lists the images in exactly the
order supplied, and the composed document places the image section after
both text sections. -/
theorem images_inlined_in_order
    (env : Env) (fs : FS) (paths : List Path) (dat : Path → Bytes)
    (h : ∀ p ∈ paths, FS.lookup fs p = some (FileData.bin (dat p))) :
    imageSectionOf env fs paths
      = some (joinStrings (paths.map (fun p =>
          imgTag (mimeFor env p) (String.mk (base64 (dat p))))))
    ∧ (∀ p, env.guessMime p = none → mimeFor env p = "application/octet-stream")
    ∧ (∀ css us ms isec, composeDocument css us ms isec
        = composeHead css ++ us ++ "\n            " ++ ms ++ "\n            "
          ++ isec ++ "\n        </body>\n        </html>\n        ") := by
  refine ⟨?_, ?_, ?_⟩
  · induction paths with
    | nil => simp [imageSectionOf, joinStrings]
    | cons p ps ih =>
      have hp := h p (by simp)
      have ihh := ih (fun q hq => h q (by simp [hq]))
      simp only [imageSectionOf, hp, ihh, List.map_cons, joinStrings, FileData.asBytes]
  · intro p hp
    unfold mimeFor
    rw [hp]
    rfl
  · intro css us ms isec
    rfl

theorem images_inlined_in_order_witness :
    (∀ p ∈ ["a.png", "b.dat"],
      FS.lookup [("a.png", FileData.bin [1]), ("b.dat", FileData.bin [2])] p
        = some (FileData.bin (if p = "a.png" then [1] else [2])))
    ∧ imageSectionOf envPlain [("a.png", FileData.bin [1]), ("b.dat", FileData.bin [2])]
        ["a.png", "b.dat"]
      = some (joinStrings (["a.png", "b.dat"].map (fun p =>
          imgTag (mimeFor envPlain p)
            (String.mk (base64 (if p = "a.png" then [1] else [2])))))) :=
  ⟨by decide,
    (images_inlined_in_order envPlain
      [("a.png", FileData.bin [1]), ("b.dat", FileData.bin [2])]
      ["a.png", "b.dat"] (fun p => if p = "a.png" then [1] else [2]) (by decide)).1⟩

theorem escapeChar_no_markup (a c : Char) (hc : c ∈ escapeChar a) :
    c ≠ '<' ∧ c ≠ '>' := by
  unfold escapeChar at hc
  split_ifs at hc with h1 h2 h3 h4 h5
  · refine ⟨?_, ?_⟩ <;> (rintro rfl; revert hc; decide)
  · refine ⟨?_, ?_⟩ <;> (rintro rfl; revert hc; decide)
  · refine ⟨?_, ?_⟩ <;> (rintro rfl; revert hc; decide)
  · refine ⟨?_, ?_⟩ <;> (rintro rfl; revert hc; decide)
  · refine ⟨?_, ?_⟩ <;> (rintro rfl; revert hc; decide)
  · simp at hc
    subst hc
    exact ⟨h2, h3⟩

theorem htmlEscapeChars_no_markup (l : List Char) (c : Char)
    (hc : c ∈ htmlEscapeChars l) : c ≠ '<' ∧ c ≠ '>' := by
  induction l with
  | nil => simp [htmlEscapeChars] at hc
  | cons a as ih =>
    simp only [htmlEscapeChars] at hc
    rcases List.mem_append.mp hc with hmem | hmem
    · exact escapeChar_no_markup a c hmem
    · exact ih hmem

/-- C10: with headings shown, the composed section embeds the heading
through `html.escape` and the Markdown-rendered body verbatim — and the
escaped heading contains no `<` or `>` character, so heading text can
never introduce HTML markup, while the body HTML is taken as-is. -/
theorem headings_escaped_body_raw
    (env : Env) (text heading : String) (ht : text ≠ "") (hh : heading ≠ "") :
    buildSection env text heading true
      = "<h1>" ++ htmlEscape heading ++ "</h1>"
        ++ "<div class='content'>" ++ markdown_to_html_final env text ++ "</div>"
    ∧ ∀ c ∈ (htmlEscape heading).data, c ≠ '<' ∧ c ≠ '>' := by
  constructor
  · unfold buildSection
    rw [if_neg ht, if_pos ⟨rfl, hh⟩]
  · intro c hc
    exact htmlEscapeChars_no_markup heading.data c hc

theorem headings_escaped_body_raw_witness :
    buildSection envPlain "x" "a<b" true
      = "<h1>" ++ htmlEscape "a<b" ++ "</h1>"
        ++ "<div class='content'>" ++ markdown_to_html_final envPlain "x" ++ "</div>"
    ∧ ∀ c ∈ (htmlEscape "a<b").data, c ≠ '<' ∧ c ≠ '>' :=
  headings_escaped_body_raw envPlain "x" "a<b" (by decide) (by decide)

/-! ### Cleanup behaviour (C5) -/

/-- The `finally:` block of `create_pdf_page` always removes the
transient HTML file. -/
theorem create_pdf_page_removes_html (env : Env) (fs : FS)
    (user_text model_text : String) (image_paths : List Path) (output_path : Path)
    (show_headings : Bool) (user_heading model_heading : String) :
    FS.lookup (create_pdf_page env fs user_text model_text image_paths output_path
      show_headings user_heading model_heading).1 tempHtmlPath = none := by
  unfold create_pdf_page
  apply removeIfExists_lookup_self

/-- When the rasterizer does not leave an output file on a failed run
and its fixed output path started empty, `create_pdf_page` leaves the
fixed output path empty: a successful run's file is renamed away to
`output_path`, and no failure path writes one. -/
theorem create_pdf_page_raster_out_clean (env : Env) (fs : FS)
    (user_text model_text : String) (image_paths : List Path) (output_path : Path)
    (show_headings : Bool) (user_heading model_heading : String)
    (hclean : env.raster.exit ≠ RasterExit.ok → env.raster.wrote = none)
    (hstale : FS.lookup fs rasterOutPath = none)
    (hout : output_path ≠ rasterOutPath) :
    FS.lookup (create_pdf_page env fs user_text model_text image_paths output_path
      show_headings user_heading model_heading).1 rasterOutPath = none := by
  have hrt : rasterOutPath ≠ tempHtmlPath := by decide
  have hfs1 : ∀ d, FS.lookup (FS.set fs tempHtmlPath d) rasterOutPath = none := by
    intro d
    rw [FS.lookup_set_ne _ _ _ _ hrt]
    exact hstale
  unfold create_pdf_page
  cases hcss : FS.lookup fs cssPath with
  | none => simpa [hcss, removeIfExists_lookup_ne _ _ _ hrt] using hstale
  | some d0 =>
    cases d0 with
    | pdf pages => simpa [hcss, removeIfExists_lookup_ne _ _ _ hrt] using hstale
    | bin b => simpa [hcss, removeIfExists_lookup_ne _ _ _ hrt] using hstale
    | text css =>
      cases hisec : imageSectionOf env fs image_paths with
      | none => simpa [hcss, hisec, removeIfExists_lookup_ne _ _ _ hrt] using hstale
      | some isec =>
        cases hex : env.raster.exit with
        | notFound =>
          simp only [hcss, hisec, hex]
          rw [removeIfExists_lookup_ne _ _ _ hrt]
          unfold applyRaster
          rw [hex]
          exact hfs1 _
        | nonzero =>
          have hw : env.raster.wrote = none := hclean (by rw [hex]; decide)
          simp only [hcss, hisec, hex]
          rw [removeIfExists_lookup_ne _ _ _ hrt]
          unfold applyRaster
          rw [hex, hw]
          exact hfs1 _
        | ok =>
          cases hw : env.raster.wrote with
          | none =>
            have h2 : FS.lookup (applyRaster (FS.set fs tempHtmlPath
                (FileData.text (composeDocument css
                  (buildSection env user_text user_heading show_headings)
                  (buildSection env model_text model_heading show_headings) isec)))
                env.raster) rasterOutPath = none := by
              unfold applyRaster
              rw [hex, hw]
              exact hfs1 _
            simp only [hcss, hisec, hex, h2]
            rw [removeIfExists_lookup_ne _ _ _ hrt]
            exact h2
          | some d =>
            have h2 : FS.lookup (applyRaster (FS.set fs tempHtmlPath
                (FileData.text (composeDocument css
                  (buildSection env user_text user_heading show_headings)
                  (buildSection env model_text model_heading show_headings) isec)))
                env.raster) rasterOutPath = some d := by
              unfold applyRaster
              rw [hex, hw]
              exact FS.lookup_set_self _ _ _
            simp only [hcss, hisec, hex, h2]
            rw [removeIfExists_lookup_ne _ _ _ hrt,
              FS.lookup_set_ne _ _ _ _ (fun h => hout h.symm), FS.lookup_erase_self]

/-- A failed `create_pdf_page` call has not created the page file: any
path other than the transient HTML file and the rasterizer's fixed
output location holds exactly what it held before. -/
theorem create_pdf_page_failure_preserves (env : Env) (fs : FS)
    (user_text model_text : String) (image_paths : List Path) (output_path : Path)
    (show_headings : Bool) (user_heading model_heading : String) (q : Path)
    (hq1 : q ≠ tempHtmlPath) (hq2 : q ≠ rasterOutPath)
    (hfail : (create_pdf_page env fs user_text model_text image_paths output_path
      show_headings user_heading model_heading).2 = false) :
    FS.lookup (create_pdf_page env fs user_text model_text image_paths output_path
      show_headings user_heading model_heading).1 q = FS.lookup fs q := by
  have hfs1 : ∀ d, FS.lookup (FS.set fs tempHtmlPath d) q = FS.lookup fs q :=
    fun d => FS.lookup_set_ne _ _ _ _ hq1
  have hfs2 : ∀ d0 d, FS.lookup (FS.set (FS.set fs tempHtmlPath d0) rasterOutPath d) q
      = FS.lookup fs q := by
    intro d0 d
    rw [FS.lookup_set_ne _ _ _ _ hq2]
    exact hfs1 d0
  unfold create_pdf_page at hfail ⊢
  cases hcss : FS.lookup fs cssPath with
  | none => simp [hcss, removeIfExists_lookup_ne _ _ _ hq1]
  | some d0 =>
    cases d0 with
    | pdf pages => simp [hcss, removeIfExists_lookup_ne _ _ _ hq1]
    | bin b => simp [hcss, removeIfExists_lookup_ne _ _ _ hq1]
    | text css =>
      cases hisec : imageSectionOf env fs image_paths with
      | none => simp [hcss, hisec, removeIfExists_lookup_ne _ _ _ hq1]
      | some isec =>
        cases hex : env.raster.exit with
        | notFound =>
          simp only [hcss, hisec, hex]
          rw [removeIfExists_lookup_ne _ _ _ hq1]
          unfold applyRaster
          rw [hex]
          exact hfs1 _
        | nonzero =>
          simp only [hcss, hisec, hex]
          rw [removeIfExists_lookup_ne _ _ _ hq1]
          unfold applyRaster
          rw [hex]
          cases hw : env.raster.wrote with
          | none => exact hfs1 _
          | some d => exact hfs2 _ _
        | ok =>
          cases hlk : FS.lookup (applyRaster (FS.set fs tempHtmlPath
              (FileData.text (composeDocument css
                (buildSection env user_text user_heading show_headings)
                (buildSection env model_text model_heading show_headings) isec)))
              env.raster) rasterOutPath with
          | some d =>
            exfalso
            simp only [hcss, hisec, hex, hlk] at hfail
            exact Bool.noConfusion hfail
          | none =>
            simp only [hcss, hisec, hex, hlk]
            rw [removeIfExists_lookup_ne _ _ _ hq1]
            unfold applyRaster
            rw [hex]
            cases hw : env.raster.wrote with
            | none => exact hfs1 _
            | some d => exact hfs2 _ _

/-- C5 is refuted as stated: when the rasterizer process fails with a
non-zero exit but has written (partial) output at its fixed output
location, neither `create_pdf_page` (whose `finally:` removes only the
transient HTML file) nor the aborted pipeline ever deletes that file.
Concretely: empty-archive run, rasterizer exits non-zero having written
`ENGINE/_temp_page.pdf` — the invocation fails and its temp-page file
remains on disk. -/
def envRasterPartial : Env :=
  { envPlain with raster := { exit := RasterExit.nonzero, wrote := some (FileData.bin [0]) } }

theorem pipeline_leaves_partial_raster_output_cex :
    (pipelineRun envRasterPartial [(cssPath, FileData.text "c")]
      "hi" "" [] "main.pdf" true "User Message" "Model Response").2 = false
    ∧ FS.lookup (pipelineRun envRasterPartial [(cssPath, FileData.text "c")]
        "hi" "" [] "main.pdf" true "User Message" "Model Response").1 rasterOutPath
      = some (FileData.bin [0])
    ∧ FS.lookup [(cssPath, FileData.text "c")] rasterOutPath = none := by
  decide

/-- C5 (amended): after any pipeline invocation — success or failure —
no transient HTML file and no temp-page file referenced by the
invocation remains, provided the external rasterizer does not leave an
output file behind on a failed run (a missing executable never writes;
the amendment excludes only a failing process that still wrote output).
The archive path is the caller's document, distinct from the engine's
fixed transient locations, and the invocation starts with no stale
temp files. -/
theorem pipeline_cleanup_under_clean_renderer
    (env : Env) (fs : FS) (user_text model_text : String) (image_paths : List Path)
    (main_pdf_path : Path) (show_headings : Bool) (user_heading model_heading : String)
    (hclean : env.raster.exit ≠ RasterExit.ok → env.raster.wrote = none)
    (h1 : FS.lookup fs rasterOutPath = none)
    (h2 : FS.lookup fs temp_page_path = none)
    (hm1 : main_pdf_path ≠ rasterOutPath)
    (hm2 : main_pdf_path ≠ tempHtmlPath) :
    FS.lookup (pipelineRun env fs user_text model_text image_paths main_pdf_path
      show_headings user_heading model_heading).1 tempHtmlPath = none
    ∧ FS.lookup (pipelineRun env fs user_text model_text image_paths main_pdf_path
        show_headings user_heading model_heading).1 rasterOutPath = none
    ∧ FS.lookup (pipelineRun env fs user_text model_text image_paths main_pdf_path
        show_headings user_heading model_heading).1 temp_page_path = none := by
  have hcr := create_pdf_page_raster_out_clean env fs user_text model_text image_paths
    temp_page_path show_headings user_heading model_heading hclean h1 (by decide)
  have hch := create_pdf_page_removes_html env fs user_text model_text image_paths
    temp_page_path show_headings user_heading model_heading
  unfold pipelineRun
  cases hc : (create_pdf_page env fs user_text model_text image_paths temp_page_path
      show_headings user_heading model_heading).2 with
  | true =>
    simp only [hc, if_true]
    refine ⟨?_, ?_, ?_⟩
    · rw [merge_pdfs_preserves_other _ _ _ _ (fun h => hm2 h.symm) (by decide)]
      exact hch
    · rw [merge_pdfs_preserves_other _ _ _ _ (fun h => hm1 h.symm) (by decide)]
      exact hcr
    · exact merge_pdfs_removes_new_page _ _ _
  | false =>
    simp only [hc, if_false, Bool.false_eq_true]
    refine ⟨hch, hcr, ?_⟩
    rw [create_pdf_page_failure_preserves env fs user_text model_text image_paths
      temp_page_path show_headings user_heading model_heading temp_page_path
      (by decide) (by decide) hc]
    exact h2

theorem pipeline_cleanup_under_clean_renderer_witness :
    (envRasterOk.raster.exit ≠ RasterExit.ok → envRasterOk.raster.wrote = none)
    ∧ FS.lookup [(cssPath, FileData.text "c")] rasterOutPath = none
    ∧ FS.lookup [(cssPath, FileData.text "c")] temp_page_path = none
    ∧ FS.lookup (pipelineRun envRasterOk [(cssPath, FileData.text "c")]
        "hi" "" [] "main.pdf" true "User Message" "Model Response").1 tempHtmlPath = none
    ∧ FS.lookup (pipelineRun envRasterOk [(cssPath, FileData.text "c")]
        "hi" "" [] "main.pdf" true "User Message" "Model Response").1 rasterOutPath = none
    ∧ FS.lookup (pipelineRun envRasterOk [(cssPath, FileData.text "c")]
        "hi" "" [] "main.pdf" true "User Message" "Model Response").1 temp_page_path = none := by
  refine ⟨fun h => absurd rfl h, by decide, by decide, ?_⟩
  exact pipeline_cleanup_under_clean_renderer envRasterOk [(cssPath, FileData.text "c")]
    "hi" "" [] "main.pdf" true "User Message" "Model Response"
    (fun h => absurd rfl h) (by decide) (by decide) (by decide) (by decide)

/-! ### Claims about the merger -/

/-- C1: when the archive file exists and reading either source as a PDF
fails (a corrupt archive, or a missing/corrupt new-page file), the merge
returns failure and the archive file's contents are exactly what they
were before the call.  The two paths are the distinct files the claim
speaks of. -/
theorem merge_read_failure_reports_and_preserves_archive
    (fs : FS) (main newp : Path) (d : FileData)
    (hne : main ≠ newp)
    (hmain : FS.lookup fs main = some d)
    (hfail : readPdfFile fs main = none ∨ readPdfFile fs newp = none) :
    (merge_pdfs fs main newp).2 = false ∧
      FS.lookup (merge_pdfs fs main newp).1 main = some d := by
  have hqm : main ≠ newp := hne
  unfold merge_pdfs
  rcases hfail with hf | hf
  · simp only [hmain, hf]
    exact ⟨trivial, by rw [removeIfExists_lookup_ne _ _ _ hqm]; exact hmain⟩
  · cases hrm : readPdfFile fs main with
    | none =>
      simp only [hmain, hrm]
      exact ⟨trivial, by rw [removeIfExists_lookup_ne _ _ _ hqm]; exact hmain⟩
    | some mp =>
      simp only [hmain, hrm, hf]
      exact ⟨trivial, by rw [removeIfExists_lookup_ne _ _ _ hqm]; exact hmain⟩

theorem merge_read_failure_reports_and_preserves_archive_witness :
    ("a.pdf" : Path) ≠ "b.pdf" ∧
    FS.lookup [("a.pdf", FileData.bin [1]), ("b.pdf", FileData.pdf [[2]])] "a.pdf"
      = some (FileData.bin [1]) ∧
    (merge_pdfs [("a.pdf", FileData.bin [1]), ("b.pdf", FileData.pdf [[2]])] "a.pdf" "b.pdf").2 = false ∧
    FS.lookup (merge_pdfs [("a.pdf", FileData.bin [1]), ("b.pdf", FileData.pdf [[2]])] "a.pdf" "b.pdf").1 "a.pdf"
      = some (FileData.bin [1]) := by
  refine ⟨by decide, by decide, ?_⟩
  exact merge_read_failure_reports_and_preserves_archive
    [("a.pdf", FileData.bin [1]), ("b.pdf", FileData.pdf [[2]])]
    "a.pdf" "b.pdf" (FileData.bin [1]) (by decide) (by decide) (Or.inl (by decide))

/-- C2: merging a valid single-page file into a valid existing archive of
`N-1` pages succeeds and yields an archive of exactly `N` pages whose
first `N-1` pages are identical, in content and order, to the pages
before the merge, with the new page last. -/
theorem merge_success_appends_one_page
    (fs : FS) (main newp : Path) (ps : List Bytes) (q : Bytes)
    (hne : main ≠ newp)
    (hmain : FS.lookup fs main = some (FileData.pdf ps))
    (hnew : FS.lookup fs newp = some (FileData.pdf [q])) :
    (merge_pdfs fs main newp).2 = true ∧
      FS.lookup (merge_pdfs fs main newp).1 main = some (FileData.pdf (ps ++ [q])) ∧
      (ps ++ [q]).length = ps.length + 1 ∧
      (ps ++ [q]).take ps.length = ps := by
  have hrm : readPdfFile fs main = some ps := by
    unfold readPdfFile; rw [hmain]
  have hrn : readPdfFile fs newp = some [q] := by
    unfold readPdfFile; rw [hnew]
  unfold merge_pdfs
  simp only [hmain, hrm, hrn]
  refine ⟨trivial, ?_, by simp, by simp⟩
  rw [removeIfExists_lookup_ne _ _ _ hne, FS.lookup_set_self]

theorem merge_success_appends_one_page_witness :
    (merge_pdfs [("main.pdf", FileData.pdf [[1], [2]]), ("page.pdf", FileData.pdf [[3]])]
      "main.pdf" "page.pdf").2 = true ∧
    FS.lookup (merge_pdfs [("main.pdf", FileData.pdf [[1], [2]]), ("page.pdf", FileData.pdf [[3]])]
      "main.pdf" "page.pdf").1 "main.pdf" = some (FileData.pdf [[1], [2], [3]]) ∧
    ([[1], [2]] ++ [[3]] : List Bytes).length = [[1], [2]].length + 1 ∧
    ([[1], [2]] ++ [[3]] : List Bytes).take [[1], [2]].length = [[1], [2]] :=
  merge_success_appends_one_page
    [("main.pdf", FileData.pdf [[1], [2]]), ("page.pdf", FileData.pdf [[3]])]
    "main.pdf" "page.pdf" [[1], [2]] [3] (by decide) (by decide) (by decide)

/-- C8: when the archive does not exist, a successful append installs the
fresh new-page file as the archive by a rename: afterwards the archive
path holds exactly the new page file's data and the new-page path no
longer exists (moved, not copied). -/
theorem merge_absent_archive_renames_new_page
    (fs : FS) (main newp : Path) (d : FileData)
    (hne : main ≠ newp)
    (hmain : FS.lookup fs main = none)
    (hnew : FS.lookup fs newp = some d) :
    (merge_pdfs fs main newp).2 = true ∧
      FS.lookup (merge_pdfs fs main newp).1 main = some d ∧
      FS.lookup (merge_pdfs fs main newp).1 newp = none := by
  unfold merge_pdfs
  simp only [hmain, hnew]
  have hlook : FS.lookup (FS.set (FS.erase fs newp) main d) newp = none := by
    rw [FS.lookup_set_ne _ _ _ _ (fun h => hne h.symm), FS.lookup_erase_self]
  refine ⟨trivial, ?_, ?_⟩
  · rw [removeIfExists_lookup_ne _ _ _ hne, FS.lookup_set_self]
  · unfold removeIfExists
    rw [hlook]
    simp [hlook]

theorem merge_absent_archive_renames_new_page_witness :
    (merge_pdfs [("page.pdf", FileData.pdf [[7]])] "main.pdf" "page.pdf").2 = true ∧
    FS.lookup (merge_pdfs [("page.pdf", FileData.pdf [[7]])] "main.pdf" "page.pdf").1 "main.pdf"
      = some (FileData.pdf [[7]]) ∧
    FS.lookup (merge_pdfs [("page.pdf", FileData.pdf [[7]])] "main.pdf" "page.pdf").1 "page.pdf"
      = none :=
  merge_absent_archive_renames_new_page [("page.pdf", FileData.pdf [[7]])]
    "main.pdf" "page.pdf" (FileData.pdf [[7]]) (by decide) (by decide) (by decide)

end PdfEngine
